import Mathlib

/-!
Shallow embedding of the OpenHands memory-condenser subsystem
(`openhands/memory/condenser/*.py` plus the rolling condenser defined in
`tests/unit/test_trigger_condenser.py`), together with theorems settling the
specification's claims about it.

Python lists become `List`, Python `int` becomes `Int`, Python exceptions are
represented by an explicit `PyExn` value in an `Except`/`Option` codomain, and
Python slicing is embedded with its exact clamping semantics.
-/

set_option autoImplicit false

/-- `Event` from `openhands/memory/condenser/base.py`: an immutable
role-tagged message (`content: str`, `role: str`). -/
structure Event where
  content : String
  role : String
deriving DecidableEq, Repr

/-- A Python exception value, identified by its class name and message.
Used to embed functions that may `raise`. -/
structure PyExn where
  ty : String
  msg : String
deriving DecidableEq, Repr

/-- Python list slice `a[s:]` for an arbitrary (possibly negative) integer
start `s`: a negative start counts from the end and both directions clamp to
the list bounds; slicing never fails. -/
def pySliceFrom (a : List Event) (s : Int) : List Event :=
  if s < 0 then a.drop (a.length + s).toNat
  else a.drop s.toNat

/-- `NoOpCondenser.condense` from `openhands/memory/condenser/noop.py`:
returns the input list unchanged. -/
def NoOpCondenser.condense (events : List Event) : List Event :=
  events

/-- `LastKCondenser` from `openhands/memory/condenser/lastk.py`: holds the
retention parameter `k` (a Python `int`, stored unvalidated). -/
structure LastKCondenser where
  k : Int
deriving DecidableEq, Repr

/-- `LastKCondenser.__init__`: stores `k` with no validation and never
raises. -/
def LastKCondenser.init (k : Int) : Except PyExn LastKCondenser :=
  .ok ⟨k⟩

/-- `LastKCondenser.condense`: splits the input into user-role messages and
the rest; if `len(other_messages) <= k` returns `user_messages ++
other_messages`, otherwise `user_messages ++ other_messages[-k:]` (Python
slice semantics, embedded by `pySliceFrom`). -/
def LastKCondenser.condense (self : LastKCondenser) (events : List Event) :
    List Event :=
  let user_messages := events.filter fun e => e.role == "user"
  let other_messages := events.filter fun e => e.role != "user"
  if (other_messages.length : Int) ≤ self.k then
    user_messages ++ other_messages
  else
    user_messages ++ pySliceFrom other_messages (-self.k)

example :
    (LastKCondenser.mk 1).condense
      [⟨"a", "user"⟩, ⟨"b", "assistant"⟩, ⟨"c", "user"⟩, ⟨"d", "assistant"⟩]
      = [⟨"a", "user"⟩, ⟨"c", "user"⟩, ⟨"d", "assistant"⟩] := by decide

example :
    (LastKCondenser.mk 0).condense [⟨"b", "assistant"⟩]
      = [⟨"b", "assistant"⟩] := by decide

example :
    (LastKCondenser.mk (-1)).condense
      [⟨"b", "assistant"⟩, ⟨"d", "assistant"⟩]
      = [⟨"d", "assistant"⟩] := by decide

/-- `HistoryLengthTrigger` from `openhands/memory/condenser/trigger.py`:
holds the `min_length` threshold. -/
structure HistoryLengthTrigger where
  min_length : Int
deriving DecidableEq, Repr

/-- `HistoryLengthTrigger.__init__` from `trigger.py`: stores `min_length`
and returns; the body contains no validation and no `raise`, so construction
succeeds for every integer argument. -/
def HistoryLengthTrigger.init (min_length : Int) :
    Except PyExn HistoryLengthTrigger :=
  .ok ⟨min_length⟩

/-- `HistoryLengthTrigger.should_fire`: `len(state.history) >=
self.min_length`. The state is represented by the only field the trigger
reads, its `history` list. -/
def HistoryLengthTrigger.should_fire (self : HistoryLengthTrigger)
    (history : List Event) : Bool :=
  decide ((history.length : Int) ≥ self.min_length)

/-- `AlwaysTrigger.should_fire` from `trigger.py`: constant `True`. -/
def AlwaysTrigger.should_fire (_history : List Event) : Bool :=
  true

/-- `SimpleCondenser.condense` from `tests/unit/test_trigger_condenser.py`:
`events[:1]`, the first event only. -/
def SimpleCondenser.condense (events : List Event) : List Event :=
  events.take 1

/-- Modelled from the spec: `Condenser.metadata_batch` is not under `src/`
(only its caller in `tests/unit/test_trigger_condenser.py` is). Per §6 it is
a scoped region that records condensation metadata into `state.extra_data`
around the wrapped condense call and leaves the call's result unchanged. -/
def metadata_batch (results : List Event) : List Event :=
  results

/-- Mutable state of `SimpleRollingCondenser` from
`tests/unit/test_trigger_condenser.py`: `_condensation` and
`_last_history_length` (the watermark). -/
structure RollState where
  condensation : List Event
  lastHistoryLength : Nat
deriving DecidableEq, Repr

/-- `SimpleRollingCondenser.__init__`: `_condensation = []`,
`_last_history_length = 0`. -/
def SimpleRollingCondenser.initState : RollState :=
  ⟨[], 0⟩

/-- `SimpleRollingCondenser.condensed_history` from
`tests/unit/test_trigger_condenser.py`, with its `HistoryLengthTrigger`:
slices the new events past the watermark (Python slicing clamps, so a
history shorter than the watermark yields no new events), appends them to
the accumulated condensation, and either passes the result through or
condenses it to its first event, committing the result and the new
watermark either way. The body contains no `raise`, so every call returns
`.ok`. -/
def condensedHistory (trigger : HistoryLengthTrigger) (rs : RollState)
    (history : List Event) : Except PyExn (List Event × RollState) :=
  let new_events := history.drop rs.lastHistoryLength
  let current_events := rs.condensation ++ new_events
  if !(trigger.should_fire history) then
    .ok (current_events, ⟨current_events, history.length⟩)
  else
    let results := metadata_batch (SimpleCondenser.condense current_events)
    .ok (results, ⟨results, history.length⟩)

example :
    condensedHistory ⟨3⟩ ⟨[⟨"a", "user"⟩], 2⟩ [⟨"a", "user"⟩]
      = .ok ([⟨"a", "user"⟩], ⟨[⟨"a", "user"⟩], 1⟩) := rfl

/-- A `{'content': ..., 'role': ...}` message dict built by
`LLMCondenser.condense` in `openhands/memory/condenser/llm.py`. -/
structure Message where
  content : String
  role : String
deriving DecidableEq, Repr

/-- The `message` field of one choice of an LLM response. -/
structure RespMessage where
  content : String
deriving DecidableEq, Repr

/-- One entry of the `choices` list of an LLM response. -/
structure Choice where
  message : RespMessage
deriving DecidableEq, Repr

/-- The response object returned by `llm.completion`: exposes the generated
text at `choices[0].message.content`. -/
structure Resp where
  choices : List Choice
deriving DecidableEq, Repr

/-- The Python `IndexError` raised by `resp['choices'][0]` on an empty
choices list. -/
def indexError : PyExn :=
  ⟨"IndexError", "list index out of range"⟩

/-- `LLMCondenser.condense` from `openhands/memory/condenser/llm.py`. The
external LLM collaborator is the opaque `completion` argument, which either
returns a response object or raises. The result triple is `(outcome, number
of completion invocations made, error-log entries emitted)`: the body calls
`self.llm.completion` at exactly one site, extracts
`resp['choices'][0]['message']['content']`, and wraps it as a single
assistant `Event`; on any exception it logs
`'Error condensing thoughts: %s' % str(e)` once and re-raises the same
exception. -/
def LLMCondenser.condense (completion : List Message → Except PyExn Resp)
    (events : List Event) : Except PyExn (List Event) × Nat × List String :=
  let messages := events.map fun e => Message.mk e.content e.role
  match completion messages with
  | .ok resp =>
    match resp.choices.head? with
    | some choice =>
      (.ok [⟨choice.message.content, "assistant"⟩], 1, [])
    | none =>
      (.error indexError, 1, ["Error condensing thoughts: " ++ indexError.msg])
  | .error e =>
    (.error e, 1, ["Error condensing thoughts: " ++ e.msg])

/-- A condenser class as stored in the registry of
`openhands/memory/condenser/base.py`: its `type_name` attribute (`none`
models a class that does not define one) and an opaque identity
distinguishing distinct classes. -/
structure CondenserCls where
  type_name : Option String
  clsId : Nat
deriving DecidableEq, Repr

/-- The process-wide registry `Condenser._registry`: a name-to-class dict,
embedded as an association list in insertion order. -/
abbrev Registry := List (String × CondenserCls)

/-- The `ValueError` raised by `Condenser.register` on a duplicate name;
the spec's taxonomy calls this condition `DuplicateRegistrationError`. -/
def dupRegistrationExn (name : String) : PyExn :=
  ⟨"ValueError", "Condenser already registered with name: " ++ name⟩

/-- The `ValueError` raised by `Condenser.get_cls` on a missing name; the
spec's taxonomy calls this condition `UnknownStrategyError`. -/
def unknownStrategyExn (name : String) : PyExn :=
  ⟨"ValueError", "No condenser registered with name: " ++ name⟩

/-- `Condenser.register` from `openhands/memory/condenser/base.py`: raises
`ValueError` if the class has no `type_name` or if the name is already
registered, otherwise inserts the class under its `type_name`. The dict is
returned alongside the possible exception; on a raise it is returned
untouched, since the `raise` precedes the assignment. -/
def Condenser.register (reg : Registry) (c : CondenserCls) :
    Option PyExn × Registry :=
  match c.type_name with
  | none => (some ⟨"ValueError", "Condenser class must define type_name"⟩, reg)
  | some name =>
    if (reg.lookup name).isSome then
      (some (dupRegistrationExn name), reg)
    else
      (none, reg ++ [(name, c)])

/-- `Condenser.get_cls` from `openhands/memory/condenser/base.py`: raises
`ValueError` if no class is registered under `name`, otherwise returns the
registered class. -/
def Condenser.get_cls (reg : Registry) (name : String) :
    Except PyExn CondenserCls :=
  match reg.lookup name with
  | some c => .ok c
  | none => .error (unknownStrategyExn name)

example :
    Condenser.get_cls (Condenser.register [] ⟨some "test", 7⟩).2 "test"
      = .ok ⟨some "test", 7⟩ := rfl

/-! ### Helper lemmas -/

/-- An element of a Python tail slice is an element of the sliced list. -/
theorem mem_pySliceFrom {e : Event} {l : List Event} {s : Int}
    (h : e ∈ pySliceFrom l s) : e ∈ l := by
  unfold pySliceFrom at h
  split at h <;> exact List.mem_of_mem_drop h

/-- Association-list lookup skips a block in which the key does not occur. -/
theorem registry_lookup_append (l₁ l₂ : Registry) (a : String)
    (h : l₁.lookup a = none) : (l₁ ++ l₂).lookup a = l₂.lookup a := by
  induction l₁ with
  | nil => rfl
  | cons p t ih =>
    obtain ⟨k, v⟩ := p
    cases hk : (a == k) with
    | true => simp [List.lookup, hk] at h
    | false =>
      simp only [List.lookup, hk] at h
      simpa [List.lookup, hk] using ih h

/-- `LastKCondenser.condense` on a list already split into a user-role block
followed by a non-user block keeps the user block and applies the window to
the non-user block. -/
theorem condense_of_split (k : Int) (u X : List Event)
    (hu : ∀ e ∈ u, (e.role == "user") = true)
    (hX : ∀ e ∈ X, (e.role != "user") = true) :
    (LastKCondenser.mk k).condense (u ++ X)
      = if (X.length : Int) ≤ k then u ++ X else u ++ pySliceFrom X (-k) := by
  have huser : (u ++ X).filter (fun e => e.role == "user") = u := by
    rw [List.filter_append, List.filter_eq_self.mpr hu,
      List.filter_eq_nil_iff.mpr ?_, List.append_nil]
    intro e he hcon
    have := hX e he
    simp [bne] at this
    simp [this] at hcon
  have hother : (u ++ X).filter (fun e => e.role != "user") = X := by
    rw [List.filter_append, List.filter_eq_self.mpr hX,
      List.filter_eq_nil_iff.mpr ?_, List.nil_append]
    intro e he hcon
    have := hu e he
    simp [bne, this] at hcon
  unfold LastKCondenser.condense
  rw [huser, hother]

/-! ### Claim theorems -/

/-- C9: the pass-through condenser is the identity: for every input event
list, including the empty list, `NoOpCondenser.condense events = events`. -/
theorem noop_condense_identity (events : List Event) :
    NoOpCondenser.condense events = events
      ∧ NoOpCondenser.condense ([] : List Event) = [] :=
  ⟨rfl, rfl⟩

/-- C3 (code bug): `HistoryLengthTrigger.__init__` performs no validation,
so construction with `min_length = 0` and `min_length = -1` succeeds and
stores the non-positive threshold instead of raising
`InvalidConfigurationError`; this contradicts
`test_trigger.py::test_history_length_trigger_invalid_config`, which expects
a `ValueError` for both inputs. -/
theorem historyLengthTrigger_init_no_validation :
    HistoryLengthTrigger.init 0 = .ok ⟨0⟩
      ∧ HistoryLengthTrigger.init (-1) = .ok ⟨-1⟩ :=
  ⟨rfl, rfl⟩

/-- C2: with `HistoryLengthTrigger(min_length=3)` over the first-event-only
strategy, appending events one at a time and calling `condensed_history`
after each append: the calls at history lengths 1 and 2 return the full
accumulated list unchanged and commit it with the watermark set to the
history length, and the calls at lengths 3, 4 and 5 return exactly the
first event of the accumulated sequence at the time of firing. -/
theorem rollingCondenser_scenario (e0 e1 e2 e3 e4 : Event) :
    condensedHistory ⟨3⟩ SimpleRollingCondenser.initState [e0]
        = .ok ([e0], ⟨[e0], 1⟩)
      ∧ condensedHistory ⟨3⟩ ⟨[e0], 1⟩ [e0, e1]
        = .ok ([e0, e1], ⟨[e0, e1], 2⟩)
      ∧ condensedHistory ⟨3⟩ ⟨[e0, e1], 2⟩ [e0, e1, e2]
        = .ok ([e0], ⟨[e0], 3⟩)
      ∧ condensedHistory ⟨3⟩ ⟨[e0], 3⟩ [e0, e1, e2, e3]
        = .ok ([e0], ⟨[e0], 4⟩)
      ∧ condensedHistory ⟨3⟩ ⟨[e0], 4⟩ [e0, e1, e2, e3, e4]
        = .ok ([e0], ⟨[e0], 5⟩) :=
  ⟨rfl, rfl, rfl, rfl, rfl⟩

/-- C4 (counterexample): with the watermark at 2 and the history shrunk to a
single event, `condensed_history` does not fail with any exception: it
returns a normal `.ok` result (the accumulated condensation, with the
watermark silently lowered). -/
theorem condensedHistory_shrunk_counterexample :
    condensedHistory ⟨3⟩ ⟨[⟨"a", "assistant"⟩], 2⟩ [⟨"b", "user"⟩]
      = .ok ([⟨"a", "assistant"⟩], ⟨[⟨"a", "assistant"⟩], 1⟩) :=
  rfl

/-- C4 (amended): if `len(state.history) < last_observed_history_length`,
the call does not fail: Python slicing clamps, so the delta is empty, and
the call returns (and commits) the accumulated condensation — condensed to
its first event when the trigger fires — with the watermark lowered to
`len(state.history)`. -/
theorem condensedHistory_shrunk_no_error (t : HistoryLengthTrigger)
    (rs : RollState) (history : List Event)
    (h : history.length < rs.lastHistoryLength) :
    condensedHistory t rs history
      = .ok (if t.should_fire history then
               (rs.condensation.take 1, ⟨rs.condensation.take 1, history.length⟩)
             else
               (rs.condensation, ⟨rs.condensation, history.length⟩)) := by
  have hd : history.drop rs.lastHistoryLength = [] :=
    List.drop_eq_nil_of_le (le_of_lt h)
  unfold condensedHistory
  rw [hd]
  cases hf : t.should_fire history <;>
    simp [hf, metadata_batch, SimpleCondenser.condense]

/-- Witness for `condensedHistory_shrunk_no_error` at a concrete shrunk
history. -/
theorem condensedHistory_shrunk_no_error_witness :
    condensedHistory ⟨3⟩ ⟨[⟨"a", "assistant"⟩], 5⟩ [⟨"x", "user"⟩]
      = .ok ([⟨"a", "assistant"⟩], ⟨[⟨"a", "assistant"⟩], 1⟩) := by
  have h := condensedHistory_shrunk_no_error ⟨3⟩ ⟨[⟨"a", "assistant"⟩], 5⟩
    [⟨"x", "user"⟩] (by decide)
  simpa using h

/-- C1 (counterexample): at `k = 0` with a single non-user event, `condense`
returns that event — the Python slice `other_messages[-0:]` is the whole
list — so the output's non-user count is 1, not `min(0, 1) = 0` as the
claim requires. -/
theorem lastK_zero_counterexample :
    (LastKCondenser.mk 0).condense [⟨"b", "assistant"⟩] = [⟨"b", "assistant"⟩]
      ∧ ¬(((LastKCondenser.mk 0).condense [⟨"b", "assistant"⟩]).filter
            (fun e => e.role != "user")).length = min 0 1 := by
  decide

/-- C1 (amended): for every integer `k ≥ 1` and every event list,
`condense` returns exactly the user-role events of the input, in their
original relative order, immediately followed by the last
`min(k, count(other))` non-user events in their original relative order;
and it never fails on empty input, where it returns `[]`. (At `k = 0` the
window clause fails: the slice `[-0:]` keeps all non-user events.) -/
theorem lastK_window_amended (k : Int) (hk : 1 ≤ k) (events : List Event) :
    (LastKCondenser.mk k).condense events
        = events.filter (fun e => e.role == "user")
          ++ ((events.filter fun e => e.role != "user").drop
              ((events.filter fun e => e.role != "user").length
                - min k.toNat (events.filter fun e => e.role != "user").length))
      ∧ (LastKCondenser.mk k).condense [] = [] := by
  constructor
  · unfold LastKCondenser.condense
    set u := events.filter (fun e => e.role == "user") with hu
    set o := events.filter (fun e => e.role != "user") with ho
    by_cases hle : (o.length : Int) ≤ k
    · rw [if_pos hle]
      have hmin : min k.toNat o.length = o.length := by omega
      rw [hmin, Nat.sub_self, List.drop_zero]
    · rw [if_neg hle]
      unfold pySliceFrom
      rw [if_pos (by omega : -k < 0)]
      have h1 : (↑o.length + -k).toNat = o.length - k.toNat := by omega
      have h2 : min k.toNat o.length = k.toNat := by omega
      rw [h1, h2]
  · unfold LastKCondenser.condense
    rw [if_pos (by simp; omega : ((([] : List Event).filter
      fun e => e.role != "user").length : Int) ≤ k)]
    rfl

/-- A concrete interleaved event list (two user turns, three non-user
turns) used by the witnesses. -/
def sampleEvents : List Event :=
  [⟨"a", "user"⟩, ⟨"b", "assistant"⟩, ⟨"c", "system"⟩,
   ⟨"d", "user"⟩, ⟨"e", "assistant"⟩]

/-- Witness for `lastK_window_amended` at `k = 2` on a concrete interleaved
event list. -/
theorem lastK_window_amended_witness :
    (LastKCondenser.mk 2).condense sampleEvents
        = sampleEvents.filter (fun e => e.role == "user")
          ++ ((sampleEvents.filter fun e => e.role != "user").drop
              ((sampleEvents.filter fun e => e.role != "user").length
                - min (Int.toNat 2)
                    (sampleEvents.filter fun e => e.role != "user").length))
      ∧ (LastKCondenser.mk 2).condense [] = [] :=
  lastK_window_amended 2 (by decide) sampleEvents

/-- C8: `LastKCondenser` is idempotent for every `k ≥ 0`: applying
`condense` with the same `k` to its own output yields that output
unchanged. -/
theorem lastK_idempotent (k : Int) (hk : 0 ≤ k) (events : List Event) :
    (LastKCondenser.mk k).condense ((LastKCondenser.mk k).condense events)
      = (LastKCondenser.mk k).condense events := by
  set u := events.filter (fun e => e.role == "user") with hu
  set o := events.filter (fun e => e.role != "user") with ho
  have huMem : ∀ e ∈ u, (e.role == "user") = true := by
    intro e he
    exact (List.mem_filter.mp he).2
  have hoMem : ∀ e ∈ o, (e.role != "user") = true := by
    intro e he
    exact (List.mem_filter.mp he).2
  have hfirst : (LastKCondenser.mk k).condense events
      = if (o.length : Int) ≤ k then u ++ o else u ++ pySliceFrom o (-k) :=
    rfl
  by_cases hle : (o.length : Int) ≤ k
  · rw [hfirst, if_pos hle, condense_of_split k u o huMem hoMem, if_pos hle]
  · have hXmem : ∀ e ∈ pySliceFrom o (-k), (e.role != "user") = true := by
      intro e he
      exact hoMem e (mem_pySliceFrom he)
    rw [hfirst, if_neg hle, condense_of_split k u (pySliceFrom o (-k)) huMem hXmem]
    by_cases hk0 : k = 0
    · subst hk0
      have hX : pySliceFrom o (-(0 : Int)) = o := by
        unfold pySliceFrom
        rw [if_neg (by omega : ¬(-(0 : Int) < 0))]
        rfl
      rw [hX, if_neg hle, hX]
    · have hXlen : ((pySliceFrom o (-k)).length : Int) = k := by
        unfold pySliceFrom
        rw [if_pos (by omega : -k < 0), List.length_drop]
        omega
      rw [if_pos (le_of_eq hXlen)]

/-- Witness for `lastK_idempotent` at `k = 1` on a concrete event list. -/
theorem lastK_idempotent_witness :
    (LastKCondenser.mk 1).condense ((LastKCondenser.mk 1).condense
        [⟨"a", "user"⟩, ⟨"b", "assistant"⟩, ⟨"c", "assistant"⟩])
      = (LastKCondenser.mk 1).condense
          [⟨"a", "user"⟩, ⟨"b", "assistant"⟩, ⟨"c", "assistant"⟩] :=
  lastK_idempotent 1 (by decide)
    [⟨"a", "user"⟩, ⟨"b", "assistant"⟩, ⟨"c", "assistant"⟩]

/-- C10: `LastKCondenser.__init__` accepts any integer `k` without
validation, and for every `k < 0` the guard `len(other) <= k` is always
false, so `condense` returns all user-role events followed by the non-user
events with the first `|k|` of them removed (all of them dropped when there
are fewer than `|k|`, by slice clamping). -/
theorem lastK_negative_k (k : Int) (hk : k < 0) (events : List Event) :
    LastKCondenser.init k = .ok ⟨k⟩
      ∧ (LastKCondenser.mk k).condense events
        = events.filter (fun e => e.role == "user")
          ++ (events.filter fun e => e.role != "user").drop (-k).toNat := by
  refine ⟨rfl, ?_⟩
  unfold LastKCondenser.condense
  set o := events.filter (fun e => e.role != "user") with ho
  rw [if_neg (by omega : ¬((o.length : Int) ≤ k))]
  unfold pySliceFrom
  rw [if_neg (by omega : ¬(-k < 0))]

/-- Witness for `lastK_negative_k` at `k = -1` on a concrete event list. -/
theorem lastK_negative_k_witness :
    LastKCondenser.init (-1) = .ok ⟨-1⟩
      ∧ (LastKCondenser.mk (-1)).condense
          [⟨"a", "user"⟩, ⟨"b", "assistant"⟩, ⟨"c", "assistant"⟩]
        = [⟨"a", "user"⟩, ⟨"b", "assistant"⟩,
            ⟨"c", "assistant"⟩].filter (fun e => e.role == "user")
          ++ ([⟨"a", "user"⟩, ⟨"b", "assistant"⟩,
              ⟨"c", "assistant"⟩].filter
                fun e => e.role != "user").drop (Int.toNat (-(-1))) :=
  lastK_negative_k (-1) (by decide)
    [⟨"a", "user"⟩, ⟨"b", "assistant"⟩, ⟨"c", "assistant"⟩]

/-- C5: when the LLM collaborator's completion call succeeds with a response
whose first choice carries text `t`, `LLMCondenser.condense` returns exactly
one assistant event with content `t`, invokes the collaborator exactly once
and logs nothing. -/
theorem llmCondense_success (completion : List Message → Except PyExn Resp)
    (events : List Event) (resp : Resp) (c : Choice) (rest : List Choice)
    (hok : completion (events.map fun e => Message.mk e.content e.role)
      = .ok resp)
    (hc : resp.choices = c :: rest) :
    LLMCondenser.condense completion events
      = (.ok [⟨c.message.content, "assistant"⟩], 1, []) := by
  simp [LLMCondenser.condense, hok, hc]

/-- Witness for `llmCondense_success`: the mocked LLM of
`test_llm_condense_success` returning the text `Condensed memory`. -/
theorem llmCondense_success_witness :
    LLMCondenser.condense (fun _qs => .ok ⟨[⟨⟨"Condensed memory"⟩⟩]⟩)
        [⟨"Hello", "user"⟩, ⟨"Hi there", "assistant"⟩,
         ⟨"How are you?", "user"⟩, ⟨"Fine", "assistant"⟩]
      = (.ok [⟨"Condensed memory", "assistant"⟩], 1, []) :=
  llmCondense_success (fun _qs => .ok ⟨[⟨⟨"Condensed memory"⟩⟩]⟩)
    [⟨"Hello", "user"⟩, ⟨"Hi there", "assistant"⟩,
     ⟨"How are you?", "user"⟩, ⟨"Fine", "assistant"⟩]
    ⟨[⟨⟨"Condensed memory"⟩⟩]⟩ ⟨⟨"Condensed memory"⟩⟩ [] rfl rfl

/-- C6: when the completion call raises any exception `e`,
`LLMCondenser.condense` emits exactly one error-log entry containing the
original error text, makes no further LLM call (the invocation count stays
1), and re-raises the very same exception value — unchanged in type and
message — with no fallback to returning the input events. -/
theorem llmCondense_failure (completion : List Message → Except PyExn Resp)
    (events : List Event) (e : PyExn)
    (herr : completion (events.map fun ev => Message.mk ev.content ev.role)
      = .error e) :
    LLMCondenser.condense completion events
      = (.error e, 1, ["Error condensing thoughts: " ++ e.msg]) := by
  simp [LLMCondenser.condense, herr]

/-- Witness for `llmCondense_failure`: the mocked failure of
`test_llm_condense_exception` (`LLMResponseError` with message
`LLM error`). -/
theorem llmCondense_failure_witness :
    LLMCondenser.condense
        (fun _qs => .error ⟨"LLMResponseError", "LLM error"⟩)
        [⟨"Hello", "user"⟩, ⟨"Hi there", "assistant"⟩]
      = (.error ⟨"LLMResponseError", "LLM error"⟩, 1,
          ["Error condensing thoughts: " ++ "LLM error"]) :=
  llmCondense_failure (fun _qs => .error ⟨"LLMResponseError", "LLM error"⟩)
    [⟨"Hello", "user"⟩, ⟨"Hi there", "assistant"⟩]
    ⟨"LLMResponseError", "LLM error"⟩ rfl

/-- C7: registering a class whose name is already present raises the
duplicate-registration error and leaves the registry unchanged; looking up
an unregistered name raises the unknown-strategy error; and after one
successful registration, lookup returns exactly the registered class. -/
theorem condenser_registry_contract (reg : Registry) (c : CondenserCls)
    (name : String) (hn : c.type_name = some name) :
    ((reg.lookup name).isSome →
        Condenser.register reg c = (some (dupRegistrationExn name), reg))
      ∧ (reg.lookup name = none →
          Condenser.get_cls reg name = .error (unknownStrategyExn name))
      ∧ (reg.lookup name = none →
          Condenser.get_cls (Condenser.register reg c).2 name = .ok c) := by
  refine ⟨?_, ?_, ?_⟩
  · intro h
    simp [Condenser.register, hn, h]
  · intro h
    simp [Condenser.get_cls, h]
  · intro h
    have hreg : (Condenser.register reg c).2 = reg ++ [(name, c)] := by
      simp [Condenser.register, hn, h]
    rw [hreg]
    simp [Condenser.get_cls, registry_lookup_append reg [(name, c)] name h,
      List.lookup]

/-- Witness for `condenser_registry_contract`, mirroring
`test_condenser_registry`: a duplicate registration is rejected without
touching the registry, a missing name raises, and a fresh registration is
returned by lookup. -/
theorem condenser_registry_contract_witness :
    Condenser.register [("test", ⟨some "test", 7⟩)] ⟨some "test", 8⟩
        = (some (dupRegistrationExn "test"), [("test", ⟨some "test", 7⟩)])
      ∧ Condenser.get_cls ([] : Registry) "nonexistent"
        = .error (unknownStrategyExn "nonexistent")
      ∧ Condenser.get_cls (Condenser.register [] ⟨some "test", 7⟩).2 "test"
        = .ok ⟨some "test", 7⟩ :=
  ⟨(condenser_registry_contract [("test", ⟨some "test", 7⟩)]
      ⟨some "test", 8⟩ "test" rfl).1 rfl,
   (condenser_registry_contract ([] : Registry)
      ⟨some "nonexistent", 9⟩ "nonexistent" rfl).2.1 rfl,
   (condenser_registry_contract [] ⟨some "test", 7⟩ "test" rfl).2.2 rfl⟩
